import Mathlib

/-!
A shallow embedding of the core of the fluxrevenue blockchain indexer:
the SQLite store layer (db.js), the chain client (flux-api.js), the block
analyzer, and the sync scheduler (scheduler.js).  Machine numbers of the
JavaScript source are modelled as `Int` (heights, timestamps) and `ℚ`
(coin amounts); fallible network calls are modelled by `Option`-valued
oracles standing for the HTTP layer; the try/catch structure of the
source is reflected by total functions returning the catch-path value.
-/

namespace FluxRevenue

/-! ### JavaScript value helpers

The source leans on JavaScript truthiness: `x || d` treats `null`,
`undefined`, `0` and the empty string as falsy. -/

/-- JavaScript `v || d` for an optional integer: missing and `0` are falsy. -/
def jsOrInt : Option Int → Int → Int
  | some v, d => if v = 0 then d else v
  | none, d => d

/-- JavaScript `v || d` for an optional string: missing and `""` are falsy. -/
def jsOrString : Option String → String → String
  | some v, d => if v = "" then d else v
  | none, d => d

/-- JavaScript `x || null` for an optional integer (used for the
`highestSynced`/`lowestSynced` rows): a present `0` collapses to `null`. -/
def jsOrNull : Option Int → Option Int
  | some v => if v = 0 then none else some v
  | none => none

/-- JavaScript truthiness of an optional string: missing and `""` are falsy. -/
def isTruthyStr : Option String → Bool
  | some s => s != ""
  | none => false

/-- JavaScript `parseInt(s) || 0`: a non-numeric string gives `NaN`, which is
falsy, hence `0`. -/
def jsParseIntOrZero (s : String) : Nat := (s.toNat?).getD 0

/-! ### Store layer (db.js)

Tables `blocks` and `transactions` are modelled as row lists; the row
order inside a table is immaterial for every query we embed. -/

/-- A row of the `blocks` table: `height INTEGER PRIMARY KEY`,
`timestamp INTEGER NOT NULL`, `hash TEXT NOT NULL`,
`synced_at INTEGER DEFAULT (unixepoch())`. -/
structure BlockRow where
  height : Int
  timestamp : Int
  hash : String
  syncedAt : Int
deriving DecidableEq, Repr

/-- A row of the `transactions` table.  `block_height` is declared
`NOT NULL`; we carry an `Option` because the JavaScript caller may pass
`undefined`, in which case the prepared statement throws and the caller
swallows the error (see `insertTransaction`). -/
structure TxRow where
  blockHeight : Option Int
  txHash : String
  voutIndex : Nat
  address : String
  fromAddress : Option String
  value : ℚ
  timestamp : Int
deriving DecidableEq, Repr

/-- The durable database state: the two tables the sync engine writes. -/
structure DbState where
  blocks : List BlockRow
  txs : List TxRow
deriving DecidableEq, Repr

def emptyDb : DbState := ⟨[], []⟩

/-- `statements.insertBlock`:
`INSERT OR REPLACE INTO blocks (height, timestamp, hash) VALUES (?, ?, ?)`.
`OR REPLACE` deletes any row with the same primary-key `height` and inserts
a fresh row; the omitted `synced_at` column takes its default
`unixepoch()`, passed here as `now`. -/
def insertBlock (now : Int) (db : DbState) (height timestamp : Int) (hash : String) : DbState :=
  { db with blocks := db.blocks.filter (fun b => b.height != height) ++ [⟨height, timestamp, hash, now⟩] }

/-- The `UNIQUE(tx_hash, vout_index, address)` key of the transactions table. -/
def sameTxKey (r : TxRow) (txHash : String) (voutIndex : Nat) (address : String) : Bool :=
  r.txHash == txHash && r.voutIndex == voutIndex && r.address == address

/-- `statements.insertTransaction`: `INSERT OR IGNORE INTO transactions ...`.
A row whose `(tx_hash, vout_index, address)` triple is already present is
silently ignored.  A `NULL` `block_height` violates `NOT NULL`, the
statement throws, and every caller catches and drops the error, so the row
is simply not inserted. -/
def insertTransaction (db : DbState) (r : TxRow) : DbState :=
  match r.blockHeight with
  | none => db
  | some _ =>
    if db.txs.any (fun t => sameTxKey t r.txHash r.voutIndex r.address) then db
    else { db with txs := db.txs ++ [r] }

/-- `statements.deleteOldTransactions`: `DELETE FROM transactions WHERE timestamp < ?`. -/
def deleteOldTransactions (db : DbState) (cutoff : Int) : DbState :=
  { db with txs := db.txs.filter (fun r => decide (cutoff ≤ r.timestamp)) }

/-- `statements.deleteOldBlocks`: `DELETE FROM blocks WHERE timestamp < ?`. -/
def deleteOldBlocks (db : DbState) (cutoff : Int) : DbState :=
  { db with blocks := db.blocks.filter (fun b => decide (cutoff ≤ b.timestamp)) }

/-- `SELECT ... FROM blocks WHERE height = ?` convenience read used to state
properties of block rows. -/
def getBlock (db : DbState) (height : Int) : Option BlockRow :=
  db.blocks.find? (fun b => b.height == height)

/-- `statements.getTotalBlockCount`: `SELECT COUNT(*) FROM blocks`. -/
def getTotalBlockCount (db : DbState) : Int := db.blocks.length

/-- `statements.getHighestBlock`: `SELECT MAX(height) FROM blocks`
(`NULL` on an empty table). -/
def getHighestBlock (db : DbState) : Option Int := (db.blocks.map (fun b => b.height)).max?

/-- `statements.getLowestBlock`: `SELECT MIN(height) FROM blocks`. -/
def getLowestBlock (db : DbState) : Option Int := (db.blocks.map (fun b => b.height)).min?

/-- `statements.getTransactionsWithoutFromAddress`:
`SELECT ... FROM transactions WHERE from_address IS NULL
ORDER BY timestamp DESC LIMIT ?`.  SQLite fixes no order among equal
timestamps; insertion sort realises one valid order, and every theorem
below uses only order-insensitive consequences. -/
def getTransactionsWithoutFromAddress (db : DbState) (limit : Nat) : List TxRow :=
  (List.insertionSort (fun a b : TxRow => b.timestamp ≤ a.timestamp)
    (db.txs.filter (fun r => r.fromAddress == none))).take limit

/-- `statements.updateTransactionFromAddress`:
`UPDATE transactions SET from_address = ? WHERE tx_hash = ? AND
block_height = ? AND vout_index = ?`. -/
def updateTransactionFromAddress (db : DbState) (newFrom : Option String)
    (txHash : String) (blockHeight : Int) (voutIndex : Nat) : DbState :=
  { db with txs := db.txs.map (fun r =>
      if r.txHash == txHash && r.blockHeight == some blockHeight && r.voutIndex == voutIndex
      then { r with fromAddress := newFrom } else r) }

/-- `cleanOldData` (scheduler.js): computes
`cutoffTime = floor(Date.now()/1000) − RETENTION_DAYS·24·60·60` from the
wall clock `now` and runs the two delete statements, transactions first. -/
def cleanOldData (RETENTION_DAYS : Int) (now : Int) (db : DbState) : DbState :=
  let cutoffTime := now - RETENTION_DAYS * 24 * 60 * 60
  deleteOldBlocks (deleteOldTransactions db cutoffTime) cutoffTime

/-! ### Chain client (flux-api.js): block bodies and batch fetch -/

/-- One output of a block transaction.  `scriptPubKeyAddresses` models
`output.scriptPubKey?.addresses || []`; `value` is the coin amount, absent
fields read as `0` through `output.value || 0`. -/
structure VOut where
  value : Option ℚ
  scriptPubKeyAddresses : List String
deriving DecidableEq, Repr

/-- One input of a block transaction.  `coinbase` is the truthiness of the
`coinbase` marker field; `scriptSigAddress` models
`input.scriptSig && input.scriptSig.address`. -/
structure VIn where
  coinbase : Bool
  address : Option String
  scriptSigAddress : Option String
  txid : Option String
  vout : Option Nat
deriving DecidableEq, Repr

/-- A transaction inside a fetched block body. -/
structure BlockTx where
  txid : String
  vin : List VIn
  vout : List VOut
  version : Option Int
  locktime : Option Int
deriving DecidableEq, Repr

/-- A fetched block body (the `data.data || data` object of
`/daemon/getblock`). -/
structure BlockData where
  height : Option Int
  time : Option Int
  hash : Option String
  confirmations : Option Int
  tx : Option (List BlockTx)
deriving DecidableEq, Repr

/-- One element of the list `getBlockDataBatch` returns:
`{ height, data, cached }` on success, `{ height, data: null, error }` when
the fetch of that height threw. -/
structure FetchResult where
  height : Int
  data : Option BlockData
  cached : Bool
  error : Option String
deriving DecidableEq, Repr

/-- The comparator of the final sort in `getBlockDataBatch`,
`(a, b) => (a.height || 0) - (b.height || 0)`: ascending block height
(`height || 0` is the identity on integer heights, `0` being falsy maps
to `0`). -/
def fetchResultLe (a b : FetchResult) : Prop := a.height ≤ b.height

instance : DecidableRel fetchResultLe := fun a b => Int.decLe a.height b.height

instance : IsTotal FetchResult fetchResultLe := ⟨fun a b => Int.le_total a.height b.height⟩

instance : IsTrans FetchResult fetchResultLe := ⟨fun _ _ _ => Int.le_trans⟩

/-- `getBlockDataBatch(blockHeights)` with `ENABLE_CACHING = true` (the
config value).  `cache` is the block-body cache, `api` the per-height
outcome of `apiCall + response.json()` (`none` models the catch path of a
thrown fetch or parse error).  Cache hits are collected first in input
order, misses are fetched in parallel and settle in input order
(`Promise.allSettled` preserves submission order), and the concatenation
is then sorted ascending by height — JavaScript `Array.prototype.sort` is
stable, as is insertion sort. -/
def getBlockDataBatch (cache : Int → Option BlockData) (api : Int → Option BlockData)
    (blockHeights : List Int) : List FetchResult :=
  if blockHeights.isEmpty then [] else
  let cachedResults := (blockHeights.filter (fun h => (cache h).isSome)).map
    (fun h => (⟨h, cache h, true, none⟩ : FetchResult))
  let uncachedHeights := blockHeights.filter (fun h => !(cache h).isSome)
  let processedResults := uncachedHeights.map (fun h =>
    match api h with
    | some d => (⟨h, some d, false, none⟩ : FetchResult)
    | none => (⟨h, none, false, some "fetch error"⟩ : FetchResult))
  List.insertionSort fetchResultLe (cachedResults ++ processedResults)

/-! ### Block analyzer (flux-api.js, `analyzeBlockForAddresses`) -/

/-- A payment record emitted by the analyzer.  The source fields `from` and
`to` are reserved words in Lean and are embedded as `fromAddr` and
`toAddr`; `date` carries the integer block time from which the source
derives its ISO date string (`null` when `blockData.time` is falsy). -/
structure Payment where
  id : String
  fromAddr : String
  toAddr : String
  amount : ℚ
  date : Option Int
  blockHeight : Option Int
  blockHash : Option String
  confirmations : Int
  voutIndex : Nat
  vinCount : Nat
  voutCount : Nat
  version : Option Int
  locktime : Option Int
  fromResolved : Bool
deriving DecidableEq, Repr

/-- The coinbase test of the analyzer loop:
`tx.vin && tx.vin.length > 0 && tx.vin[0].coinbase`. -/
def txIsCoinbase (t : BlockTx) : Bool :=
  match t.vin with
  | [] => false
  | firstInput :: _ => firstInput.coinbase

/-- The `foundPayments` inner loops: iterate outputs with their index and,
inside each output, its decoded addresses; emit
`(matched address, output index, value || 0)` for every address in the
watched set. -/
def txFoundPayments (addressSet : List String) (t : BlockTx) : List (String × Nat × ℚ) :=
  t.vout.enum.flatMap (fun p =>
    p.2.scriptPubKeyAddresses.filterMap (fun outputAddr =>
      if addressSet.contains outputAddr then some (outputAddr, p.1, p.2.value.getD 0) else none))

/-- The provisional sender of an emitting transaction: the inline
`vin[0].address` when truthy, else `vin[0].scriptSig.address` when truthy,
else the sentinel `"prev:<txid>:<vout>"` when the first input carries
`{ txid, vout }`, else `"Unknown"`. -/
def txFromAddress (t : BlockTx) : String :=
  match t.vin with
  | [] => "Unknown"
  | firstInput :: _ =>
    if isTruthyStr firstInput.address then firstInput.address.getD ""
    else if isTruthyStr firstInput.scriptSigAddress then firstInput.scriptSigAddress.getD ""
    else if isTruthyStr firstInput.txid then
      match firstInput.vout with
      | some v => "prev:" ++ firstInput.txid.getD "" ++ ":" ++ toString v
      | none => "Unknown"
    else "Unknown"

/-- The per-transaction body of the analyzer loop: compute `foundPayments`;
when non-empty, determine the provisional sender once and emit one record
per found payment, stamped with the block attributes. -/
def analyzeTx (addressSet : List String) (bd : BlockData) (t : BlockTx) : List Payment :=
  let foundPayments := txFoundPayments addressSet t
  if foundPayments.isEmpty then [] else
  let fromAddress := txFromAddress t
  foundPayments.map (fun p =>
    ⟨t.txid, fromAddress, p.1, p.2.2, jsOrNull bd.time, bd.height, bd.hash,
     jsOrInt bd.confirmations 0, p.2.1, t.vin.length, t.vout.length,
     t.version, t.locktime, false⟩)

/-- `analyzeBlockForAddresses(blockData, targetAddresses)`, restricted to
its `transactions` output (the returned `count`, `value` and
`addressBreakdown` fields are aggregations of this list).  Transactions
whose first input is a coinbase marker are skipped (`continue`). -/
def analyzeBlockForAddresses (bd : BlockData) (targetAddresses : List String) : List Payment :=
  match bd.tx with
  | none => []
  | some txList =>
    if targetAddresses.isEmpty then [] else
    txList.flatMap (fun t => if txIsCoinbase t then [] else analyzeTx targetAddresses bd t)

/-- `analyzeBlocksBatch(blockResults, targetAddresses)`, restricted to its
`transactions` output: results without a body (`!blockResult.data`) are
skipped, the per-block payment lists are concatenated in result order. -/
def analyzeBlocksBatch (blockResults : List FetchResult) (targetAddresses : List String) :
    List Payment :=
  if blockResults.isEmpty || targetAddresses.isEmpty then [] else
  blockResults.flatMap (fun r =>
    match r.data with
    | none => []
    | some bd => analyzeBlockForAddresses bd targetAddresses)

/-! ### Chain client: sender resolution and the address cache -/

/-- The resolved-address cache (`addressCache`), a JavaScript `Map` keyed by
the string `` `${txid}:${voutIndex}` ``.  Size-capped eviction runs on a
separate timer, never inside `resolveFromAddress`, so a plain association
list models the map between evictions. -/
abbrev AddressCache := List (String × String)

/-- `addressCache.get` / `addressCache.has`. -/
def cacheGet (c : AddressCache) (k : String) : Option String :=
  (c.find? (fun p => p.1 == k)).map (fun p => p.2)

/-- `addressCache.set`: replace the binding of an existing key, otherwise
append a fresh one. -/
def cacheSet (c : AddressCache) (k v : String) : AddressCache :=
  if (c.find? (fun p => p.1 == k)).isSome then
    c.map (fun p => if p.1 == k then (k, v) else p)
  else c ++ [(k, v)]

/-- One output of a decoded raw transaction, again collapsing
`output.scriptPubKey?.addresses || []`. -/
structure RawVout where
  scriptPubKeyAddresses : List String
deriving DecidableEq, Repr

/-- The `data` payload of `/daemon/getrawtransaction`. -/
structure RawTxData where
  vout : Option (List RawVout)
deriving DecidableEq, Repr

/-- The `{ status, data }` envelope of `/daemon/getrawtransaction`. -/
structure RawTxResponse where
  status : String
  data : Option RawTxData
deriving DecidableEq, Repr

/-- The `resolvedAddress` computation of the `resolveFromAddress` miss
path: `"Unknown"` unless the envelope has `status = "success"` and
`data.vout[voutIndex]` exists, in which case
`addresses[0] || 'Unknown'`.  The `none` response models a thrown network
or parse error, whose catch branch also yields `"Unknown"`. -/
def resolveMissValue (resp : Option RawTxResponse) (voutIndex : Nat) : String :=
  match resp with
  | none => "Unknown"
  | some data =>
    if data.status == "success" then
      match data.data with
      | none => "Unknown"
      | some d =>
        match d.vout with
        | none => "Unknown"
        | some vouts =>
          match vouts[voutIndex]? with
          | none => "Unknown"
          | some output => jsOrString output.scriptPubKeyAddresses.head? "Unknown"
    else "Unknown"

/-- `resolveFromAddress(txid, voutIndex)` with `ENABLE_CACHING = true` (the
config value).  On a cache hit the cached string returns unchanged; on a
miss the resolved value (or the catch-path `"Unknown"`) is stored under
the `txid:vout` key and returned.  The function never throws — its whole
body is wrapped in try/catch. -/
def resolveFromAddress (cache : AddressCache) (resp : Option RawTxResponse)
    (txid : String) (voutIndex : Nat) : String × AddressCache :=
  let cacheKey := txid ++ ":" ++ toString voutIndex
  match cacheGet cache cacheKey with
  | some v => (v, cache)
  | none =>
    let resolvedAddress := resolveMissValue resp voutIndex
    (resolvedAddress, cacheSet cache cacheKey resolvedAddress)

/-- Parsing of the `"prev:<txid>:<vout>"` sentinel, as repeated inline in
`batchResolveFromAddresses` and `backfillFromAddresses`:
`parts = from.replace('prev:', '').split(':')`, previous txid `parts[0]`,
output index `parseInt(parts[1]) || 0`. -/
def parsePrevRef (s : String) : String × Nat :=
  let parts := (s.drop 5).splitOn ":"
  (parts.headD "", jsParseIntOrZero ((parts.drop 1).headD ""))

/-- The per-payment body of `batchResolveFromAddresses` (the
`AGGRESSIVE_PARALLEL = true` path of the config): a payment whose `from`
starts with `"prev:"` is sent through `resolveFromAddress` and marked
`fromResolved`, any other payment passes through unchanged. -/
def resolvePaymentFrom (rawTx : String → Nat → Option RawTxResponse)
    (st : List Payment × AddressCache) (tx : Payment) : List Payment × AddressCache :=
  if tx.fromAddr.startsWith "prev:" then
    let pr := parsePrevRef tx.fromAddr
    let r := resolveFromAddress st.2 (rawTx pr.1 pr.2) pr.1 pr.2
    (st.1 ++ [{ tx with fromAddr := r.1, fromResolved := true }], r.2)
  else (st.1 ++ [tx], st.2)

/-- `batchResolveFromAddresses(transactions, batchSize)`: the payments are
processed in slices of `batchSize` whose results are concatenated in
order; slicing only paces the HTTP concurrency, so the result equals the
fold over the flat list.  The shared `addressCache` is threaded through in
payment order (one legal interleaving of the in-batch parallel lookups). -/
def batchResolveFromAddresses (rawTx : String → Nat → Option RawTxResponse)
    (cache : AddressCache) (transactions : List Payment) : List Payment × AddressCache :=
  transactions.foldl (resolvePaymentFrom rawTx) ([], cache)

/-! ### Scheduler batch persistence (scheduler.js) -/

/-- The `blockInserts` element built from one fetch result:
`[result.height, result.data.time || now, result.data.hash || '']`,
skipping results without a body (`filter(result => result.data)`). -/
def mkBlockInsert (now : Int) (r : FetchResult) : Option (Int × Int × String) :=
  match r.data with
  | none => none
  | some d => some (r.height, jsOrInt d.time now, jsOrString d.hash "")

/-- The body of the first `db.transaction` of `batchInsertData` (and the
whole of `batchInsertBlocks`): run `insertBlock` for every built insert. -/
def applyBlockInserts (now : Int) (blockResults : List FetchResult) (db : DbState) : DbState :=
  (blockResults.filterMap (mkBlockInsert now)).foldl
    (fun d i => insertBlock now d i.1 i.2.1 i.2.2) db

/-- The `transactionInserts` element built from one analyzed payment:
`[tx.blockHeight, tx.id || '', tx.voutIndex || 0, tx.to,
tx.from === 'Unknown' ? null : tx.from, tx.amount || 0, timestamp]` where
`timestamp = blockResults.find(b => b.height === tx.blockHeight)?.data?.time || now`.
`tx.id || ''`, `tx.voutIndex || 0` and `tx.amount || 0` are the identity
on the embedded types (the falsy values map to themselves). -/
def mkTransactionInsert (now : Int) (blockResults : List FetchResult) (tx : Payment) : TxRow :=
  let blockData := blockResults.find? (fun b => some b.height == tx.blockHeight)
  let timestamp := jsOrInt (blockData.bind (fun b => b.data.bind (fun d => d.time))) now
  ⟨tx.blockHeight, tx.id, tx.voutIndex, tx.toAddr,
   if tx.fromAddr == "Unknown" then none else some tx.fromAddr, tx.amount, timestamp⟩

/-- The body of the second `db.transaction` of `batchInsertData`: run
`insertTransaction` for every built row; per-row `UNIQUE` failures are
swallowed by the inner try/catch (embedded inside `insertTransaction`). -/
def applyTransactionInserts (now : Int) (blockResults : List FetchResult)
    (transactions : List Payment) (db : DbState) : DbState :=
  (transactions.map (mkTransactionInsert now blockResults)).foldl insertTransaction db

/-- Durability outcomes of one `batchInsertData` call.  The source wraps
the block inserts and the transaction inserts in two separate
`db.transaction` units, committed one after the other; each unit is atomic
on its own, so at any fault boundary the durable state is the state after
zero, one, or both commits. -/
inductive BatchOutcome
  | neither
  | blocksOnly
  | complete
deriving DecidableEq, Repr

/-- `batchInsertData(blockResults, transactions)` as observed at a
durability boundary: `.neither` before the block commit, `.blocksOnly`
between the two commits, `.complete` after both. -/
def batchInsertData (now : Int) (blockResults : List FetchResult)
    (transactions : List Payment) (db : DbState) : BatchOutcome → DbState
  | .neither => db
  | .blocksOnly => applyBlockInserts now blockResults db
  | .complete => applyTransactionInserts now blockResults transactions
      (applyBlockInserts now blockResults db)

/-- `batchInsertBlocks(blockResults)`: one atomic transaction of block
inserts only (used when a batch carries no payments). -/
def batchInsertBlocks (now : Int) (blockResults : List FetchResult) (db : DbState) : DbState :=
  applyBlockInserts now blockResults db

/-- `fallbackIndividualInserts(blockResults, transactions)`: the catch
handler of `batchInsertData` retries every row individually, outside any
transaction — blocks first, then transaction rows, with the same per-row
statements and error swallowing.  `insertFetchedBlock` is the per-result
body of its block loop (`if (result.data) try insertBlock`). -/
def insertFetchedBlock (now : Int) (d : DbState) (r : FetchResult) : DbState :=
  match mkBlockInsert now r with
  | none => d
  | some i => insertBlock now d i.1 i.2.1 i.2.2

def fallbackIndividualInserts (now : Int) (blockResults : List FetchResult)
    (transactions : List Payment) (db : DbState) : DbState :=
  let db1 := blockResults.foldl (insertFetchedBlock now) db
  transactions.foldl (fun d tx => insertTransaction d (mkTransactionInsert now blockResults tx)) db1

/-! ### Sync engine (scheduler.js): status and planner -/

/-- The derived status object of `getSyncStatus(currentHeight)`.
`syncProgress` is the real-valued percentage
`totalBlocksSynced / (BLOCKS_PER_DAY · RETENTION_DAYS) · 100`. -/
structure SyncStatus where
  currentHeight : Int
  totalBlocksSynced : Int
  highestSynced : Option Int
  lowestSynced : Option Int
  targetLowestBlock : Int
  initialSyncTarget : Int
  newBlocksRemaining : Int
  historicalBlocksRemaining : Int
  totalBlocksRemaining : Int
  isFirstRun : Bool
  needsForwardSync : Bool
  needsBackwardSync : Bool
  hasCompletedInitialSync : Bool
  syncProgress : ℚ
deriving DecidableEq, Repr

/-- `getSyncStatus(currentHeight)` over the three store reads
(`COUNT(*)`, `MAX(height)`, `MIN(height)`).  The source normalises the
rows through `?.height || null`, so a stored height `0` reads back as
`null` (`jsOrNull`). -/
def getSyncStatus (BLOCKS_PER_DAY RETENTION_DAYS : Int) (count : Int)
    (maxHeight minHeight : Option Int) (currentHeight : Int) : SyncStatus :=
  let totalBlocksSynced := count
  let highestSynced := jsOrNull maxHeight
  let lowestSynced := jsOrNull minHeight
  let targetLowestBlock := currentHeight - BLOCKS_PER_DAY * RETENTION_DAYS
  let initialSyncTarget := currentHeight - BLOCKS_PER_DAY
  let newBlocksRemaining :=
    match highestSynced with
    | some h => max 0 (currentHeight - h)
    | none => BLOCKS_PER_DAY
  let historicalBlocksRemaining :=
    match lowestSynced with
    | some l => max 0 (l - targetLowestBlock)
    | none => BLOCKS_PER_DAY * RETENTION_DAYS - BLOCKS_PER_DAY
  ⟨currentHeight, totalBlocksSynced, highestSynced, lowestSynced, targetLowestBlock,
   initialSyncTarget, newBlocksRemaining, historicalBlocksRemaining,
   newBlocksRemaining + historicalBlocksRemaining,
   highestSynced.isNone,
   (match highestSynced with
    | none => true
    | some h => decide (h < currentHeight)),
   (match lowestSynced with
    | none => true
    | some l => decide (targetLowestBlock < l)),
   (match lowestSynced with
    | none => false
    | some l => decide (l ≤ initialSyncTarget)),
   (totalBlocksSynced : ℚ) / ((BLOCKS_PER_DAY : ℚ) * (RETENTION_DAYS : ℚ)) * 100⟩

/-- `getSyncStatus` read against a concrete store state. -/
def getSyncStatusOfDb (BLOCKS_PER_DAY RETENTION_DAYS : Int) (db : DbState)
    (currentHeight : Int) : SyncStatus :=
  getSyncStatus BLOCKS_PER_DAY RETENTION_DAYS (getTotalBlockCount db)
    (getHighestBlock db) (getLowestBlock db) currentHeight

inductive SyncDirection
  | forward
  | backward
deriving DecidableEq, Repr

/-- The `priority` tags the planner attaches to a plan. -/
inductive SyncPriority
  | completionForward
  | completionBackward
  | initial
  | newBlocks
  | historical
  | initialBackward
deriving DecidableEq, Repr

/-- One directional piece of a sync plan:
`{ startBlock, endBlock, blocksToSync, direction, priority,
useGapDetection?, totalBlocks? }`. -/
structure PlanLeg where
  startBlock : Int
  endBlock : Int
  blocksToSync : Int
  direction : SyncDirection
  priority : SyncPriority
  useGapDetection : Bool
  totalBlocks : Option Int
deriving DecidableEq, Repr

/-- The value of `createSyncPlan`: a single directional plan, a hybrid
plan (the forward fields spread at top level plus a `backwardPlan` and a
`totalCapacityUsed`), or the empty plan `{ blocksToSync: 0 }`. -/
inductive SyncPlan
  | single (leg : PlanLeg)
  | hybrid (forwardLeg backwardLeg : PlanLeg) (totalCapacityUsed : Int)
  | empty
deriving DecidableEq, Repr

/-- The part of `createSyncPlan` below the near-completion block: the
first-run branch, then the hybrid forward/backward allocation.  JavaScript
`null` arithmetic (`status.highestSynced + 1` with `highestSynced = null`)
coerces `null` to `0`, embedded by `Option.getD 0`. -/
def createSyncPlanMain (MAX_BLOCKS_PER_SYNC : Int) (status : SyncStatus)
    (currentHeight : Int) : SyncPlan :=
  if status.isFirstRun then
    let startBlock := max status.initialSyncTarget 1
    let endBlock := currentHeight
    let totalBlocks := |endBlock - startBlock| + 1
    let blocksToSync := min totalBlocks MAX_BLOCKS_PER_SYNC
    .single ⟨startBlock, min endBlock (startBlock + blocksToSync - 1), blocksToSync,
      .forward, .initial, false, some totalBlocks⟩
  else
    let forwardPlan : Option PlanLeg :=
      if status.needsForwardSync then
        let forwardBlocksToSync := min status.newBlocksRemaining MAX_BLOCKS_PER_SYNC
        some ⟨status.highestSynced.getD 0 + 1, status.highestSynced.getD 0 + forwardBlocksToSync,
          forwardBlocksToSync, .forward, .newBlocks, false, none⟩
      else none
    let forwardBlocksUsed := match forwardPlan with | some p => p.blocksToSync | none => 0
    let remainingCapacity := MAX_BLOCKS_PER_SYNC - forwardBlocksUsed
    let backwardPlan : Option PlanLeg :=
      if decide (0 < remainingCapacity) && status.needsBackwardSync then
        let backwardEndBlock := status.lowestSynced.getD 0 - 1
        let backwardStartBlock :=
          if !status.hasCompletedInitialSync then
            max (backwardEndBlock - remainingCapacity + 1)
              (max status.initialSyncTarget status.targetLowestBlock)
          else
            max (backwardEndBlock - remainingCapacity + 1) status.targetLowestBlock
        let backwardBlocks := max 0 (backwardEndBlock - backwardStartBlock + 1)
        if 0 < backwardBlocks then
          some ⟨backwardStartBlock, backwardEndBlock, backwardBlocks, .backward,
            (if status.hasCompletedInitialSync then .historical else .initialBackward),
            false, none⟩
        else none
      else none
    match forwardPlan, backwardPlan with
    | some f, some b => .hybrid f b (f.blocksToSync + b.blocksToSync)
    | some f, none => .single f
    | none, some b => .single b
    | none, none => .empty

/-- `createSyncPlan(status, currentHeight)`: the near-completion strategy
(progress ≥ 95%) takes priority — a capped forward plan when new blocks
remain, else a capped backward plan, both flagged `useGapDetection`; when
neither applies the control falls through to the main planner. -/
def createSyncPlan (MAX_BLOCKS_PER_SYNC : Int) (status : SyncStatus)
    (currentHeight : Int) : SyncPlan :=
  if 95 ≤ status.syncProgress then
    if status.needsForwardSync then
      let forwardBlocks := min status.newBlocksRemaining 500
      .single ⟨status.highestSynced.getD 0 + 1, status.highestSynced.getD 0 + forwardBlocks,
        forwardBlocks, .forward, .completionForward, true, none⟩
    else if status.needsBackwardSync then
      let backwardBlocks := min status.historicalBlocksRemaining 1000
      .single ⟨max (status.lowestSynced.getD 0 - backwardBlocks) status.targetLowestBlock,
        status.lowestSynced.getD 0 - 1, backwardBlocks, .backward, .completionBackward,
        true, none⟩
    else createSyncPlanMain MAX_BLOCKS_PER_SYNC status currentHeight
  else createSyncPlanMain MAX_BLOCKS_PER_SYNC status currentHeight

/-! ### Sync engine: gap detection and the final completion check -/

/-- The inclusive integer range `[s, e]`, empty when `e < s` (the
`for (let height = startHeight; height <= endHeight; height++)` loop). -/
def intRange (s e : Int) : List Int :=
  (List.range (e + 1 - s).toNat).map (fun i => s + Int.ofNat i)

/-- The detection half of `detectAndFillMissingBlocks`: query the stored
heights inside `[startHeight, endHeight]`, then collect every height of
the range that the store misses, ascending. -/
def detectMissingBlocks (db : DbState) (startHeight endHeight : Int) : List Int :=
  let existingBlocks := (db.blocks.filter (fun b =>
    decide (startHeight ≤ b.height) && decide (b.height ≤ endHeight))).map (fun b => b.height)
  (intRange startHeight endHeight).filter (fun h => !(existingBlocks.contains h))

/-- The per-batch body of the fill loop of `detectAndFillMissingBlocks`:
fetch the batch, analyze it against the watched addresses, resolve
`"prev:"` senders (fan-out 5), and commit — `batchInsertData` when the
batch carries payments, `batchInsertBlocks` otherwise.  The pair threads
the store and the shared address cache. -/
def processMissingBatch (now : Int) (blockCache api : Int → Option BlockData)
    (rawTx : String → Nat → Option RawTxResponse) (targetAddresses : List String)
    (st : DbState × AddressCache) (batch : List Int) : DbState × AddressCache :=
  let blockResults := getBlockDataBatch blockCache api batch
  let analysisTxs := analyzeBlocksBatch blockResults targetAddresses
  if analysisTxs.isEmpty then (batchInsertBlocks now blockResults st.1, st.2)
  else
    let resolved := batchResolveFromAddresses rawTx st.2 analysisTxs
    (batchInsertData now blockResults resolved.1 st.1 .complete, resolved.2)

/-- `detectAndFillMissingBlocks(startHeight, endHeight)`: returns the
number of processed heights together with the updated store and address
cache.  The missing heights are filled in ascending batches of 50; with
every fetch settling (the per-height catch is inside `getBlockDataBatch`),
`processed` accumulates to the full count of missing heights. -/
def detectAndFillMissingBlocks (now : Int) (blockCache api : Int → Option BlockData)
    (rawTx : String → Nat → Option RawTxResponse) (targetAddresses : List String)
    (db : DbState) (addrCache : AddressCache) (startHeight endHeight : Int) :
    Nat × DbState × AddressCache :=
  let missingBlocks := detectMissingBlocks db startHeight endHeight
  if missingBlocks.isEmpty then (0, db, addrCache)
  else
    let final := (missingBlocks.toChunks 50).foldl
      (processMissingBatch now blockCache api rawTx targetAddresses) (db, addrCache)
    (missingBlocks.length, final.1, final.2)

/-- `performFinalCompletionCheck(currentHeight)`: below 95% progress the
check returns `false` untouched; at or above it, the recent window
`[currentHeight − 3·BLOCKS_PER_DAY, currentHeight]` is scanned and
filled, then — when `lowestSynced` is truthy — the historical window
`[max(lowestSynced − 7·BLOCKS_PER_DAY, targetLowestBlock), lowestSynced]`.
All three result branches of the source reduce to
`totalMissing === 0`, the Boolean returned here together with the updated
store.  `performSync` publishes `isComplete: true` to the status channel
exactly when this Boolean is `true`. -/
def performFinalCompletionCheck (BLOCKS_PER_DAY RETENTION_DAYS now : Int)
    (blockCache api : Int → Option BlockData)
    (rawTx : String → Nat → Option RawTxResponse) (targetAddresses : List String)
    (db : DbState) (addrCache : AddressCache) (currentHeight : Int) : Bool × DbState :=
  let syncStatus := getSyncStatusOfDb BLOCKS_PER_DAY RETENTION_DAYS db currentHeight
  if 95 ≤ syncStatus.syncProgress then
    let recentStart := currentHeight - 3 * BLOCKS_PER_DAY
    let r1 := detectAndFillMissingBlocks now blockCache api rawTx targetAddresses
      db addrCache recentStart currentHeight
    let r2 :=
      match syncStatus.lowestSynced with
      | none => ((0 : Nat), r1.2.1, r1.2.2)
      | some lowest =>
        let historicalEnd := lowest
        let historicalStart := max (historicalEnd - 7 * BLOCKS_PER_DAY)
          syncStatus.targetLowestBlock
        detectAndFillMissingBlocks now blockCache api rawTx targetAddresses
          r1.2.1 r1.2.2 historicalStart historicalEnd
    let totalMissing := r1.1 + r2.1
    (totalMissing == 0, r2.2.1)
  else (false, db)

/-! ### Spec-side definitions (for refinement comparisons)

These two definitions follow the wording of the specification, not the
source; each theorem comparing them with the source-side embedding says
so explicitly. -/

/-- Spec wording of the retention sweep: keep exactly the rows with
`timestamp ≥ refTimestamp − RETENTION_DAYS · 86400`, delete the rest, in
both tables.  The specification instantiates `refTimestamp` with the
timestamp of the current chain tip. -/
def specRetentionSweep (RETENTION_DAYS refTimestamp : Int) (db : DbState) : DbState :=
  ⟨db.blocks.filter (fun b => decide (refTimestamp - RETENTION_DAYS * 86400 ≤ b.timestamp)),
   db.txs.filter (fun r => decide (refTimestamp - RETENTION_DAYS * 86400 ≤ r.timestamp))⟩

/-- Spec wording of sender resolution on a cache miss: the first decoded
address of the referenced previous output when the transaction-by-id
lookup succeeds and that output exists, and `"Unknown"` on any failure
(network error, malformed payload, missing output, or empty address
list). -/
def specResolveSender (resp : Option RawTxResponse) (voutIndex : Nat) : String :=
  match resp with
  | none => "Unknown"
  | some r =>
    if r.status = "success" then
      match r.data with
      | none => "Unknown"
      | some d =>
        match d.vout with
        | none => "Unknown"
        | some vouts =>
          match vouts[voutIndex]? with
          | none => "Unknown"
          | some output =>
            match output.scriptPubKeyAddresses with
            | [] => "Unknown"
            | a :: _ => a
    else "Unknown"

/-- Well-formedness of a decoded transaction payload: every decoded output
address is a non-empty string.  Decoded chain addresses are never empty;
the hypothesis separates them from the JavaScript-truthiness corner where
`addresses[0] || 'Unknown'` treats `""` as absent. -/
def respAddressesNonempty : Option RawTxResponse → Bool
  | none => true
  | some r =>
    match r.data with
    | none => true
    | some d =>
      match d.vout with
      | none => true
      | some vouts => vouts.all (fun o => o.scriptPubKeyAddresses.all (fun a => a != ""))

/-- The write step of `backfillFromAddresses`:
`statements.updateTransactionFromAddress.run(fromAddress === 'Unknown' ? null : fromAddress, tx.tx_hash, tx.block_height, tx.vout_index)`. -/
def backfillWriteFromAddress (db : DbState) (fromAddress : String)
    (txHash : String) (blockHeight : Int) (voutIndex : Nat) : DbState :=
  updateTransactionFromAddress db
    (if fromAddress == "Unknown" then none else some fromAddress) txHash blockHeight voutIndex

/-! ### Concrete fixtures for the end-to-end scenarios -/

/-- A fetched body for height 100 used by the atomicity scenario. -/
def blockDataA : BlockData := ⟨some 100, some 1000, some "hashA", none, some []⟩

/-- The fetch-result list of the atomicity scenario: one block. -/
def blockResultsA : List FetchResult := [⟨100, some blockDataA, false, none⟩]

/-- One analyzed payment landing in block 100. -/
def paymentA : Payment :=
  ⟨"txA", "tSENDER", "tADDR1", 1, some 1000, some 100, some "hashA", 0, 0, 1, 1, none, none, false⟩

/-- Store with one transaction row at timestamp 950000 and its block: with
wall clock 1090000 and tip timestamp 1000000 (a chain roughly a day
behind the wall clock) the row sits between the two candidate cutoffs. -/
def dbC2 : DbState :=
  ⟨[⟨40, 950000, "h40", 950001⟩],
   [⟨some 40, "t40", 0, "tADDR1", none, 2, 950000⟩]⟩

/-- The block of payment-extraction scenario 3: height 1500, time
1700000000, one non-coinbase transaction paying 1.25 to `tADDR1` on
output 0 and 0.0 to `tOTHER` on output 1. -/
def blockC7 : BlockData :=
  ⟨some 1500, some 1700000000, some "h1500", none,
   some [⟨"txA", [⟨false, none, none, some "A", some 2⟩],
     [⟨some (5 / 4), ["tADDR1"]⟩, ⟨some 0, ["tOTHER"]⟩], none, none⟩]⟩

/-- A raw-transaction response whose output 2 decodes to `tSENDER`
(sender-resolution scenario 4). -/
def rawRespA : RawTxResponse :=
  ⟨"success", some ⟨some [⟨["tS0"]⟩, ⟨["tS1"]⟩, ⟨["tSENDER"]⟩]⟩⟩

/-- The near-completion store of scenario 6 at tip 10000 with
`BLOCKS_PER_DAY = 167`, `RETENTION_DAYS = 3`: every height of the
retention window `[9499, 10000]` except 9500 and 9501.  Progress is
500/501 ≈ 99.8 % ≥ 95 and `newBlocksRemaining = 0`. -/
def dbC9 : DbState :=
  ⟨((intRange 9499 10000).filter (fun h => h != 9500 && h != 9501)).map
    (fun h => ⟨h, 1700000000, "", 0⟩), []⟩

/-- A chain API for the gap-fill scenario: every height resolves to a body
containing no transactions. -/
def apiC9 : Int → Option BlockData :=
  fun h => some ⟨some h, some 1700000000, some "", none, some []⟩

/-- An empty block-body cache. -/
def cacheNone : Int → Option BlockData := fun _ => none

/-- A chain API where every height fetch succeeds with an empty body
(used by the ordering scenario). -/
def apiAll : Int → Option BlockData :=
  fun h => some ⟨some h, some 1, some "", none, some []⟩

/-- A store holding block 1 (timestamp 10, hash `"a"`) inserted at wall
clock 5, plus one payment row, for the duplicate-insert scenarios. -/
def dbDup : DbState :=
  ⟨[⟨1, 10, "a", 5⟩], [⟨some 1, "t1", 0, "tADDR1", none, 1, 10⟩]⟩

/-- A row carrying the same `(tx_hash, vout_index, address)` triple as the
row stored in `dbDup` but a different payload. -/
def rowDup : TxRow := ⟨some 1, "t1", 0, "tADDR1", some "tOTHER", 9, 99⟩

/-! ## Theorems

General-purpose lemmas first, then one theorem per claim (with its
counterexample and witness where applicable). -/

/-- `find?` is unchanged by removing elements the predicate rejects. -/
theorem find?_filter_of_imp {α : Type} (p q : α → Bool) (l : List α)
    (h : ∀ x, p x = true → q x = true) :
    (l.filter q).find? p = l.find? p := by
  induction l with
  | nil => rfl
  | cons a l ih =>
    by_cases hp : p a = true
    · rw [List.filter_cons, h a hp]
      simp only [if_true, List.find?_cons, hp]
    · have hp2 : p a = false := by revert hp; cases p a <;> simp
      rw [List.filter_cons]
      cases hq : q a with
      | true => simp only [if_true, List.find?_cons, hp2, ih]
      | false => simp only [Bool.false_eq_true, if_false, ih, List.find?_cons, hp2]

/-- Membership of the inclusive integer range. -/
theorem mem_intRange {h s e : Int} : h ∈ intRange s e ↔ s ≤ h ∧ h ≤ e := by
  unfold intRange
  constructor
  · intro hmem
    obtain ⟨i, hi, heq⟩ := List.mem_map.mp hmem
    rw [List.mem_range] at hi
    rw [Int.ofNat_eq_natCast] at heq
    omega
  · intro hse
    refine List.mem_map.mpr ⟨(h - s).toNat, List.mem_range.mpr (by omega), ?_⟩
    rw [Int.ofNat_eq_natCast]
    omega

/-- Claim C2 counterexample: with wall clock 1090000, tip timestamp
1000000 and `RETENTION_DAYS = 1`, the sweep deletes the row at timestamp
950000 even though `950000 ≥ tip_timestamp − 86400 = 913600`, so the
sweep does not implement the tip-relative cutoff the claim states. -/
theorem cleanOldData_tip_cutoff_counterexample :
    cleanOldData 1 1090000 dbC2 ≠ specRetentionSweep 1 1000000 dbC2 := by
  decide

/-- Claim C2 (amended): the retention sweep deletes exactly the
transaction rows and block rows whose timestamp is below
`now − RETENTION_DAYS · 86400` where `now` is the wall-clock time of the
sweep (`floor(Date.now()/1000)`), not the timestamp of the chain tip, and
preserves exactly the rows at or above that cutoff. -/
theorem cleanOldData_wall_clock_cutoff (RETENTION_DAYS now : Int) (db : DbState) :
    cleanOldData RETENTION_DAYS now db = specRetentionSweep RETENTION_DAYS now db := by
  obtain ⟨bs, ts⟩ := db
  unfold cleanOldData specRetentionSweep deleteOldBlocks deleteOldTransactions
  have h : now - RETENTION_DAYS * 24 * 60 * 60 = now - RETENTION_DAYS * 86400 := by ring
  simp only [h]

/-- Claim C4 counterexample: re-inserting height 1 with a different
timestamp and hash changes the stored state — `INSERT OR REPLACE`
overwrites the existing block row instead of ignoring the duplicate. -/
theorem insertBlock_replaces_counterexample :
    insertBlock 7 (insertBlock 5 emptyDb 1 10 "a") 1 20 "b" ≠ insertBlock 5 emptyDb 1 10 "a" := by
  decide

/-- Claim C4 (amended): re-inserting a transaction with an already-present
`(tx_hash, vout_index, address)` triple is a no-op; re-inserting a block
with an already-present height is NOT ignored — the stored row is
replaced, taking the new timestamp, hash and `synced_at`, while rows at
other heights are untouched. -/
theorem duplicate_insert_semantics (db : DbState) (r : TxRow) (now h ts : Int) (hs : String) :
    (db.txs.any (fun t => sameTxKey t r.txHash r.voutIndex r.address) = true →
      insertTransaction db r = db) ∧
    getBlock (insertBlock now db h ts hs) h = some ⟨h, ts, hs, now⟩ ∧
    (∀ h2, h2 ≠ h → getBlock (insertBlock now db h ts hs) h2 = getBlock db h2) := by
  refine ⟨fun hdup => ?_, ?_, fun h2 hne => ?_⟩
  · unfold insertTransaction
    cases r.blockHeight with
    | none => rfl
    | some _ => simp only [hdup, if_true]
  · unfold getBlock insertBlock
    rw [List.find?_append]
    have h1 : (db.blocks.filter (fun b => b.height != h)).find? (fun b => b.height == h) = none := by
      rw [List.find?_eq_none]
      intro x hx
      have := (List.mem_filter.mp hx).2
      simp only [bne_iff_ne, ne_eq] at this
      simp only [beq_iff_eq]
      exact this
    rw [h1]
    simp
  · unfold getBlock insertBlock
    rw [List.find?_append]
    have h1 : ([(⟨h, ts, hs, now⟩ : BlockRow)].find? (fun b => b.height == h2)) = none := by
      rw [List.find?_eq_none]
      intro x hx
      simp only [List.mem_singleton] at hx
      subst hx
      simp only [beq_iff_eq]
      omega
    rw [h1]
    rw [find?_filter_of_imp _ _ _ (fun x hx => ?_)]
    · cases hfind : db.blocks.find? (fun b => b.height == h2) <;> rfl
    · simp only [beq_iff_eq] at hx
      simp only [bne_iff_ne, ne_eq, hx]
      omega

/-- Claim C4 witness: the duplicate-triple insert leaves `dbDup`
unchanged, the duplicate-height insert replaces block 1, and block 2 is
unaffected. -/
theorem duplicate_insert_semantics_witness :
    (dbDup.txs.any (fun t => sameTxKey t rowDup.txHash rowDup.voutIndex rowDup.address) = true) ∧
    insertTransaction dbDup rowDup = dbDup ∧
    getBlock (insertBlock 7 dbDup 1 20 "b") 1 = some ⟨1, 20, "b", 7⟩ ∧
    getBlock (insertBlock 7 dbDup 1 20 "b") 2 = getBlock dbDup 2 := by
  refine ⟨by decide, (duplicate_insert_semantics dbDup rowDup 7 1 20 "b").1 (by decide),
    (duplicate_insert_semantics dbDup rowDup 7 1 20 "b").2.1,
    (duplicate_insert_semantics dbDup rowDup 7 1 20 "b").2.2 2 (by decide)⟩

/-- Claim C5: in the state tip 2000, highest 1990, lowest 500, target
lowest 200 (here from `BLOCKS_PER_DAY = 900`, `RETENTION_DAYS = 2`, so
`2000 − 1800 = 200`), 1000 stored blocks (progress ≈ 55.6 % < 95) and
budget 100, the planner returns the hybrid plan: forward 1991..2000 (10
blocks, priority `new_blocks`) and backward 410..499 (90 blocks, priority
`historical`), using the full budget and not crossing target lowest. -/
theorem createSyncPlan_hybrid_scenario :
    createSyncPlan 100 (getSyncStatus 900 2 1000 (some 1990) (some 500) 2000) 2000 =
      .hybrid ⟨1991, 2000, 10, .forward, .newBlocks, false, none⟩
        ⟨410, 499, 90, .backward, .historical, false, none⟩ 100 := by
  have h0 : (getSyncStatus 900 2 1000 (some 1990) (some 500) 2000).syncProgress =
      (1000 : ℚ) / ((900 : ℚ) * (2 : ℚ)) * 100 := rfl
  have hp : ¬ ((95 : ℚ) ≤ (getSyncStatus 900 2 1000 (some 1990) (some 500) 2000).syncProgress) := by
    rw [h0]
    norm_num
  rw [createSyncPlan, if_neg hp]
  decide

/-- Claim C6: on a first run with tip 1000, `BLOCKS_PER_DAY = 720` and
budget 500 the planner returns the single forward plan 280..779
(500 blocks, priority `initial`); in general a first-run cycle below the
95 % threshold plans forward from `max(initial_sync_target, 1)` with
priority `initial`, at most the budget many blocks, ending at or below
the tip. -/
theorem createSyncPlan_first_run :
    (createSyncPlan 500 (getSyncStatus 720 1460 0 none none 1000) 1000 =
      .single ⟨280, 779, 500, .forward, .initial, false, some 721⟩) ∧
    ∀ (MAX tip : Int) (status : SyncStatus), status.isFirstRun = true →
      status.syncProgress < 95 →
      ∃ leg, createSyncPlan MAX status tip = .single leg ∧
        leg.startBlock = max status.initialSyncTarget 1 ∧
        leg.direction = .forward ∧ leg.priority = .initial ∧
        leg.blocksToSync ≤ MAX ∧ leg.endBlock ≤ tip := by
  constructor
  · have h0 : (getSyncStatus 720 1460 0 none none 1000).syncProgress =
        (0 : ℚ) / ((720 : ℚ) * (1460 : ℚ)) * 100 := rfl
    have hp : ¬ ((95 : ℚ) ≤ (getSyncStatus 720 1460 0 none none 1000).syncProgress) := by
      rw [h0]
      norm_num
    rw [createSyncPlan, if_neg hp]
    decide
  · intro MAX tip status hfr hlt
    have hp : ¬ ((95 : ℚ) ≤ status.syncProgress) := not_le.mpr hlt
    rw [createSyncPlan, if_neg hp, createSyncPlanMain, if_pos hfr]
    exact ⟨_, rfl, rfl, rfl, rfl, min_le_right _ _, min_le_left _ _⟩

/-- Claim C6 witness: the general first-run statement applied to the
concrete fresh-index state (tip 1000, `BLOCKS_PER_DAY` 720, budget
500). -/
theorem createSyncPlan_first_run_witness :
    ((getSyncStatus 720 1460 0 none none 1000).isFirstRun = true) ∧
    ((getSyncStatus 720 1460 0 none none 1000).syncProgress < 95) ∧
    ∃ leg, createSyncPlan 500 (getSyncStatus 720 1460 0 none none 1000) 1000 = .single leg ∧
      leg.startBlock = max (getSyncStatus 720 1460 0 none none 1000).initialSyncTarget 1 ∧
      leg.direction = .forward ∧ leg.priority = .initial ∧
      leg.blocksToSync ≤ 500 ∧ leg.endBlock ≤ 1000 := by
  have h0 : (getSyncStatus 720 1460 0 none none 1000).syncProgress =
      (0 : ℚ) / ((720 : ℚ) * (1460 : ℚ)) * 100 := rfl
  have hlt : (getSyncStatus 720 1460 0 none none 1000).syncProgress < 95 := by
    rw [h0]
    norm_num
  exact ⟨by decide, hlt, createSyncPlan_first_run.2 500 1000 _ (by decide) hlt⟩

/-- Skipping elements by emitting `[]` is the same as flat-mapping over
the filtered list. -/
theorem flatMap_if_empty_eq_filter {α β : Type} (p : α → Bool) (f : α → List β) (l : List α) :
    (l.flatMap fun t => if p t then [] else f t) =
      (l.filter (fun t => !p t)).flatMap f := by
  induction l with
  | nil => rfl
  | cons a l ih =>
    rw [List.flatMap_cons, List.filter_cons]
    cases h : p a
    · simp only [Bool.false_eq_true, if_false, Bool.not_false, if_true, List.flatMap_cons, ih]
    · simp only [if_true, Bool.not_true, Bool.false_eq_true, if_false, List.nil_append, ih]

/-- On a list already purged of the skipped elements, the skip guard is
dead code. -/
theorem flatMap_filter_guard {α β : Type} (p : α → Bool) (f : α → List β) (l : List α) :
    ((l.filter (fun t => !p t)).flatMap fun t => if p t then [] else f t) =
      (l.filter (fun t => !p t)).flatMap f := by
  induction l with
  | nil => rfl
  | cons a l ih =>
    rw [List.filter_cons]
    cases h : p a
    · simp only [Bool.not_false, if_true, List.flatMap_cons, h, Bool.false_eq_true, if_false, ih]
    · simp only [Bool.not_true, Bool.false_eq_true, if_false, ih]

/-- Claim C7: the analyzer applied to the scenario block (height 1500,
time 1700000000, one non-coinbase transaction paying 1.25 to `tADDR1` on
output 0 and 0.0 to an unwatched address on output 1, watched set
`{tADDR1}`) emits exactly one payment — recipient `tADDR1`, output index
0, value 1.25, block height 1500, block timestamp 1700000000 — and, in
general, transactions whose first input is a coinbase marker never
contribute: analyzing a block equals analyzing the block with coinbase
transactions removed. -/
theorem analyzeBlock_payment_extraction :
    (analyzeBlockForAddresses blockC7 ["tADDR1"] =
      [⟨"txA", "prev:A:2", "tADDR1", 5 / 4, some 1700000000, some 1500, some "h1500",
        0, 0, 1, 2, none, none, false⟩]) ∧
    ∀ (bd : BlockData) (targets : List String),
      analyzeBlockForAddresses bd targets =
        analyzeBlockForAddresses
          { bd with tx := bd.tx.map (fun txs => txs.filter (fun t => !txIsCoinbase t)) }
          targets := by
  constructor
  · rfl
  · intro bd targets
    unfold analyzeBlockForAddresses
    cases htx : bd.tx with
    | none => rfl
    | some txs =>
      simp only [htx, Option.map_some']
      cases hT : targets.isEmpty
      · simp only [Bool.false_eq_true, if_false]
        rw [flatMap_if_empty_eq_filter, flatMap_filter_guard]
        rfl
      · simp only [if_true]


/-- Claim C3 counterexample: a descending input list is not returned in
input order — for input heights `[2, 1]` (nothing cached, both fetches
succeeding) the result reports heights `[1, 2]`, so position 0 does not
report the height submitted at position 0. -/
theorem getBlockDataBatch_order_counterexample :
    ¬ ((getBlockDataBatch cacheNone apiAll [2, 1]).map (fun r => r.height) = [2, 1]) := by
  decide

/-- Claim C3 (amended): the batch fetch returns one result per input
height, but sorted in ascending height order (the final comparator sort),
not in submission order; consequently on an ascending input list — the
forward-sync shape — position `i` reports the height submitted at
position `i`, while a descending (backward-sync) list comes back
reversed. -/
theorem getBlockDataBatch_sorted (cache api : Int → Option BlockData) (heights : List Int) :
    ((getBlockDataBatch cache api heights).map (fun r => r.height)).Perm heights ∧
    List.Sorted (fun a b : Int => a ≤ b) ((getBlockDataBatch cache api heights).map (fun r => r.height)) ∧
    (List.Sorted (fun a b : Int => a ≤ b) heights →
      (getBlockDataBatch cache api heights).map (fun r => r.height) = heights) := by
  have key : ∀ cache2 api2 hs, ((getBlockDataBatch cache2 api2 hs).map (fun r => r.height)).Perm hs ∧
      List.Sorted (fun a b : Int => a ≤ b) ((getBlockDataBatch cache2 api2 hs).map (fun r => r.height)) := by
    intro cache2 api2 hs
    unfold getBlockDataBatch
    cases he : hs.isEmpty
    · simp only [Bool.false_eq_true, if_false]
      constructor
      · have hperm : (List.insertionSort fetchResultLe
            (((hs.filter (fun h => (cache2 h).isSome)).map
              (fun h => (⟨h, cache2 h, true, none⟩ : FetchResult))) ++
             ((hs.filter (fun h => !(cache2 h).isSome)).map (fun h =>
                match api2 h with
                | some d => (⟨h, some d, false, none⟩ : FetchResult)
                | none => (⟨h, none, false, some "fetch error"⟩ : FetchResult))))).Perm
            (((hs.filter (fun h => (cache2 h).isSome)).map
              (fun h => (⟨h, cache2 h, true, none⟩ : FetchResult))) ++
             ((hs.filter (fun h => !(cache2 h).isSome)).map (fun h =>
                match api2 h with
                | some d => (⟨h, some d, false, none⟩ : FetchResult)
                | none => (⟨h, none, false, some "fetch error"⟩ : FetchResult)))) :=
          List.perm_insertionSort fetchResultLe _
        refine ((hperm.map (fun r => r.height)).trans ?_)
        rw [List.map_append, List.map_map, List.map_map]
        have h1 : ((fun r : FetchResult => r.height) ∘
            (fun h : Int => (⟨h, cache2 h, true, none⟩ : FetchResult))) = fun h => h := rfl
        have h2 : ((fun r : FetchResult => r.height) ∘ (fun h : Int =>
            match api2 h with
            | some d => (⟨h, some d, false, none⟩ : FetchResult)
            | none => (⟨h, none, false, some "fetch error"⟩ : FetchResult))) = fun h => h := by
          funext h
          simp only [Function.comp_apply]
          cases api2 h <;> rfl
        rw [h1, h2, List.map_id', List.map_id']
        exact List.filter_append_perm _ hs
      · have hs2 := List.sorted_insertionSort fetchResultLe
          (((hs.filter (fun h => (cache2 h).isSome)).map
            (fun h => (⟨h, cache2 h, true, none⟩ : FetchResult))) ++
           ((hs.filter (fun h => !(cache2 h).isSome)).map (fun h =>
              match api2 h with
              | some d => (⟨h, some d, false, none⟩ : FetchResult)
              | none => (⟨h, none, false, some "fetch error"⟩ : FetchResult))))
        exact List.pairwise_map.mpr hs2
    · simp only [if_true]
      rw [List.isEmpty_iff] at he
      subst he
      exact ⟨List.Perm.refl [], List.sorted_nil⟩
  refine ⟨(key cache api heights).1, (key cache api heights).2, fun hsorted => ?_⟩
  exact List.eq_of_perm_of_sorted (key cache api heights).1 (key cache api heights).2 hsorted

/-- Claim C3 witness: the amended order statement applied to the
ascending two-height input `[1, 2]`. -/
theorem getBlockDataBatch_sorted_witness :
    List.Sorted (fun a b : Int => a ≤ b) [1, 2] ∧
    (getBlockDataBatch cacheNone apiAll [1, 2]).map (fun r => r.height) = [1, 2] := by
  refine ⟨by decide, (getBlockDataBatch_sorted cacheNone apiAll [1, 2]).2.2 (by decide)⟩


/-- A `Map.set` makes the bound value readable back under its key. -/
theorem cacheGet_cacheSet (c : AddressCache) (k v : String) :
    cacheGet (cacheSet c k v) k = some v := by
  unfold cacheSet
  cases hfind : (c.find? (fun p => p.1 == k)).isSome
  · simp only [Bool.false_eq_true, if_false]
    unfold cacheGet
    have hnone : List.find? (fun p => p.1 == k) c = none := by
      cases h2 : List.find? (fun p => p.1 == k) c
      · rfl
      · rw [h2] at hfind
        cases hfind
    rw [List.find?_append, hnone]
    simp
  · simp only [if_true]
    unfold cacheGet
    induction c with
    | nil => simp at hfind
    | cons p c ih =>
      cases hp : (p.1 == k)
      · rw [List.find?_cons_of_neg _ (by simp [hp])] at hfind
        simp only [List.map_cons, hp, Bool.false_eq_true, if_false]
        rw [List.find?_cons_of_neg _ (by simp [hp])]
        exact ih hfind
      · simp only [List.map_cons, hp, if_true]
        rw [List.find?_cons_of_pos _ (by simp)]
        rfl

/-- On a cache miss the code-side resolved value coincides with the
spec-side description, provided every decoded address is a non-empty
string. -/
theorem resolveMissValue_eq_spec (resp : Option RawTxResponse) (voutIndex : Nat)
    (hne : respAddressesNonempty resp = true) :
    resolveMissValue resp voutIndex = specResolveSender resp voutIndex := by
  cases resp with
  | none => rfl
  | some data =>
    obtain ⟨status, dd⟩ := data
    simp only [resolveMissValue, specResolveSender, respAddressesNonempty] at hne ⊢
    cases hst : (status == "success")
    · have hne2 : status ≠ "success" := beq_eq_false_iff_ne.mp hst
      rw [if_neg (by simp [hst]), if_neg hne2]
    · rw [if_pos (by simp [hst]), if_pos (beq_iff_eq.mp hst)]
      cases dd with
      | none => rfl
      | some d =>
        obtain ⟨dv⟩ := d
        simp only [] at hne ⊢
        cases dv with
        | none => rfl
        | some vouts =>
          simp only [] at hne ⊢
          cases hout : vouts[voutIndex]? with
          | none => rfl
          | some output =>
            have hmem := List.getElem?_mem hout
            have hall := (List.all_eq_true.mp hne) output hmem
            obtain ⟨addrs⟩ := output
            cases addrs with
            | nil => rfl
            | cons a rest =>
              have hane : (a != "") = true := (List.all_eq_true.mp hall) a (by simp)
              simp only [List.head?_cons, jsOrString]
              rw [if_neg (by simpa using hane)]
/-- Claim C8: for every cache, response and `(prev_tx_hash, vout_index)`,
the resolver (a) leaves the returned string readable in the address cache
under the `txid:vout` key — on a hit it was already there, on a miss both
the success and every failure path store it — and (b) on a cache miss
returns exactly what the specification describes: the first decoded
address of the referenced output when the lookup succeeds and the output
exists, and `"Unknown"` on any failure (network error, malformed payload,
missing output, empty address list); the comparison assumes decoded
addresses are non-empty strings (`respAddressesNonempty`), since
JavaScript `addresses[0] || 'Unknown'` would demote an empty-string
address.  Totality of the embedding reflects that the source never
throws. -/
theorem resolveFromAddress_spec (cache : AddressCache) (resp : Option RawTxResponse)
    (txid : String) (voutIndex : Nat) :
    (cacheGet (resolveFromAddress cache resp txid voutIndex).2 (txid ++ ":" ++ toString voutIndex)
      = some (resolveFromAddress cache resp txid voutIndex).1) ∧
    (cacheGet cache (txid ++ ":" ++ toString voutIndex) = none →
      respAddressesNonempty resp = true →
      (resolveFromAddress cache resp txid voutIndex).1 = specResolveSender resp voutIndex) := by
  cases hcg : cacheGet cache (txid ++ ":" ++ toString voutIndex) with
  | some v =>
    have hres : resolveFromAddress cache resp txid voutIndex = (v, cache) := by
      simp only [resolveFromAddress, hcg]
    rw [hres]
    exact ⟨hcg, fun hnone _ => Option.noConfusion hnone⟩
  | none =>
    have hres : resolveFromAddress cache resp txid voutIndex =
        (resolveMissValue resp voutIndex,
         cacheSet cache (txid ++ ":" ++ toString voutIndex) (resolveMissValue resp voutIndex)) := by
      simp only [resolveFromAddress, hcg]
    rw [hres]
    exact ⟨cacheGet_cacheSet _ _ _, fun _ hne => resolveMissValue_eq_spec resp voutIndex hne⟩

/-- Claim C8 witness: resolving `("A", 2)` on an empty cache against a
payload whose output 2 decodes to `tSENDER` returns the spec value and
stores it under the key `"A:2"`. -/
theorem resolveFromAddress_spec_witness :
    (cacheGet [] ("A" ++ ":" ++ toString 2) = none) ∧
    (respAddressesNonempty (some rawRespA) = true) ∧
    (resolveFromAddress [] (some rawRespA) "A" 2).1 = specResolveSender (some rawRespA) 2 ∧
    cacheGet (resolveFromAddress [] (some rawRespA) "A" 2).2 ("A" ++ ":" ++ toString 2)
      = some (resolveFromAddress [] (some rawRespA) "A" 2).1 := by
  refine ⟨by decide, by decide,
    (resolveFromAddress_spec [] (some rawRespA) "A" 2).2 (by decide) (by decide),
    (resolveFromAddress_spec [] (some rawRespA) "A" 2).1⟩


/-- Claim C10: (a) every transaction row the batch insert builds carries
`from_address` equal to a concrete string or `NULL`, never the sentinel
`"Unknown"` — an `"Unknown"` sender is mapped to `NULL` before insertion
(and only it maps to `NULL`); (b) the sender backfill selects only rows
with `from_address IS NULL`, and — within the `LIMIT` — exactly those
rows; (c) the backfill write-back maps an `"Unknown"` resolution to
`NULL` again, so no store state reachable through these writers ever
holds the sentinel, and unresolved rows stay eligible for
re-resolution. -/
theorem persisted_from_address_never_unknown :
    (∀ (now : Int) (blockResults : List FetchResult) (tx : Payment),
      (mkTransactionInsert now blockResults tx).fromAddress ≠ some "Unknown" ∧
      ((mkTransactionInsert now blockResults tx).fromAddress = none ↔ tx.fromAddr = "Unknown")) ∧
    (∀ (db : DbState) (limit : Nat),
      (∀ r ∈ getTransactionsWithoutFromAddress db limit, r.fromAddress = none) ∧
      ((db.txs.filter (fun r => r.fromAddress == none)).length ≤ limit →
        ∀ r, r ∈ getTransactionsWithoutFromAddress db limit ↔
          r ∈ db.txs ∧ r.fromAddress = none)) ∧
    (∀ (db : DbState) (resolved txHash : String) (bh : Int) (vi : Nat),
      (∀ r ∈ db.txs, r.fromAddress ≠ some "Unknown") →
      ∀ r ∈ (backfillWriteFromAddress db resolved txHash bh vi).txs,
        r.fromAddress ≠ some "Unknown") := by
  refine ⟨fun now blockResults tx => ?_, fun db limit => ⟨fun r hr => ?_, fun hlen r => ?_⟩,
    fun db resolved txHash bh vi hinv r hr => ?_⟩
  · have hf : (mkTransactionInsert now blockResults tx).fromAddress =
        (if tx.fromAddr == "Unknown" then none else some tx.fromAddr) := rfl
    rw [hf]
    cases hu : (tx.fromAddr == "Unknown")
    · simp only [Bool.false_eq_true, if_false]
      constructor
      · intro hc
        have := Option.some.inj hc
        rw [this] at hu
        simp at hu
      · constructor
        · intro hc
          cases hc
        · intro hc
          rw [hc] at hu
          simp at hu
    · simp only [if_true]
      exact ⟨fun hc => Option.noConfusion hc, ⟨fun _ => beq_iff_eq.mp hu, fun _ => trivial⟩⟩
  · unfold getTransactionsWithoutFromAddress at hr
    have h1 := List.mem_of_mem_take hr
    have h2 := (List.mem_insertionSort _).mp h1
    exact beq_iff_eq.mp (List.mem_filter.mp h2).2
  · unfold getTransactionsWithoutFromAddress
    have hle : (List.insertionSort (fun a b : TxRow => b.timestamp ≤ a.timestamp)
        (db.txs.filter (fun r => r.fromAddress == none))).length ≤ limit := by
      rw [List.length_insertionSort]
      exact hlen
    rw [List.take_of_length_le hle, List.mem_insertionSort, List.mem_filter]
    constructor
    · rintro ⟨hm, hb⟩
      exact ⟨hm, beq_iff_eq.mp hb⟩
    · rintro ⟨hm, hb⟩
      exact ⟨hm, beq_iff_eq.mpr hb⟩
  · unfold backfillWriteFromAddress updateTransactionFromAddress at hr
    obtain ⟨x, hx, rfl⟩ := List.mem_map.mp hr
    by_cases hcond : (x.txHash == txHash && x.blockHeight == some bh && x.voutIndex == vi) = true
    · rw [if_pos hcond]
      cases hresU : (resolved == "Unknown")
      · simp only [hresU, Bool.false_eq_true, if_false]
        intro hc
        have := Option.some.inj hc
        rw [this] at hresU
        simp at hresU
      · simp only [hresU, if_true]
        exact fun hc => Option.noConfusion hc
    · rw [if_neg hcond]
      exact hinv x hx

/-- Claim C10 witness: the mapped insert of `paymentA` carries a non-null,
non-sentinel sender; `dbDup` has one null-sender row, which the backfill
selection returns exactly; and writing back an `"Unknown"` resolution
leaves the store free of the sentinel. -/
theorem persisted_from_address_never_unknown_witness :
    ((mkTransactionInsert 1000 blockResultsA paymentA).fromAddress ≠ some "Unknown") ∧
    ((dbDup.txs.filter (fun r => r.fromAddress == none)).length ≤ 5) ∧
    ((⟨some 1, "t1", 0, "tADDR1", none, 1, 10⟩ : TxRow) ∈ getTransactionsWithoutFromAddress dbDup 5 ↔
      (⟨some 1, "t1", 0, "tADDR1", none, 1, 10⟩ : TxRow) ∈ dbDup.txs ∧
      (⟨some 1, "t1", 0, "tADDR1", none, 1, 10⟩ : TxRow).fromAddress = none) ∧
    (((backfillWriteFromAddress dbDup "Unknown" "t1" 1 0).txs.all
      (fun r => !(r.fromAddress == some "Unknown"))) = true) := by
  refine ⟨(persisted_from_address_never_unknown.1 1000 blockResultsA paymentA).1, by decide,
    (persisted_from_address_never_unknown.2.1 dbDup 5).2 (by decide) _, ?_⟩
  rw [List.all_eq_true]
  intro r hr
  have := persisted_from_address_never_unknown.2.2 dbDup "Unknown" "t1" 1 0
    (by decide) r hr
  simpa using this


/-- The filtered-and-mapped block-insert fold of `batchInsertData` equals
the per-result guarded fold of the fallback path. -/
theorem foldl_filterMap_insertBlock (now : Int) (l : List FetchResult) (db : DbState) :
    (l.filterMap (mkBlockInsert now)).foldl
      (fun d i => insertBlock now d i.1 i.2.1 i.2.2) db =
      l.foldl (insertFetchedBlock now) db := by
  induction l generalizing db with
  | nil => rfl
  | cons a l ih =>
    cases hfa : mkBlockInsert now a
    · simp only [List.filterMap_cons, hfa, List.foldl_cons, insertFetchedBlock]
      exact ih db
    · simp only [List.filterMap_cons, hfa, List.foldl_cons, insertFetchedBlock]
      exact ih _

/-- `insertTransaction` never removes rows. -/
theorem insertTransaction_mono {db : DbState} {r t : TxRow} (h : t ∈ db.txs) :
    t ∈ (insertTransaction db r).txs := by
  unfold insertTransaction
  cases r.blockHeight
  · exact h
  · by_cases hc : (db.txs.any (fun u => sameTxKey u r.txHash r.voutIndex r.address)) = true
    · rw [if_pos hc]
      exact h
    · rw [if_neg hc]
      exact List.mem_append_left _ h

/-- A fold of transaction inserts never removes rows. -/
theorem foldl_insertTransaction_mono (rows : List TxRow) (db : DbState) {t : TxRow}
    (h : t ∈ db.txs) : t ∈ (rows.foldl insertTransaction db).txs := by
  induction rows generalizing db with
  | nil => exact h
  | cons r rows ih =>
    rw [List.foldl_cons]
    exact ih _ (insertTransaction_mono h)

/-- After inserting a row with a non-null block height, some row carrying
its unique triple is stored. -/
theorem insertTransaction_key_present {db : DbState} {r : TxRow} (hh : r.blockHeight.isSome) :
    ∃ t ∈ (insertTransaction db r).txs, sameTxKey t r.txHash r.voutIndex r.address = true := by
  unfold insertTransaction
  cases hbh : r.blockHeight with
  | none => rw [hbh] at hh; cases hh
  | some bh =>
    by_cases hc : (db.txs.any (fun u => sameTxKey u r.txHash r.voutIndex r.address)) = true
    · rw [if_pos hc]
      exact List.any_eq_true.mp hc
    · rw [if_neg hc]
      refine ⟨r, List.mem_append_right _ (by simp), ?_⟩
      unfold sameTxKey
      simp

/-- Every payment of the batch with a concrete block height has a row with
its unique triple after the transaction-insert fold. -/
theorem foldl_insertTransaction_all_keys (rows : List TxRow) (db : DbState) :
    ∀ r ∈ rows, r.blockHeight.isSome →
      ∃ t ∈ (rows.foldl insertTransaction db).txs,
        sameTxKey t r.txHash r.voutIndex r.address = true := by
  induction rows generalizing db with
  | nil => intro r hr; cases hr
  | cons a rows ih =>
    intro r hr hh
    rw [List.foldl_cons]
    rcases List.mem_cons.mp hr with rfl | htail
    · obtain ⟨t, ht, hkey⟩ := @insertTransaction_key_present db _ hh
      exact ⟨t, foldl_insertTransaction_mono rows _ ht, hkey⟩
    · exact ih _ r htail hh

/-- `insertTransaction` leaves the blocks table untouched. -/
theorem insertTransaction_blocks (db : DbState) (r : TxRow) :
    (insertTransaction db r).blocks = db.blocks := by
  unfold insertTransaction
  cases r.blockHeight
  · rfl
  · by_cases hc : (db.txs.any (fun u => sameTxKey u r.txHash r.voutIndex r.address)) = true
    · rw [if_pos hc]
    · rw [if_neg hc]

/-- The transaction-insert fold leaves the blocks table untouched. -/
theorem foldl_insertTransaction_blocks (rows : List TxRow) (db : DbState) :
    (rows.foldl insertTransaction db).blocks = db.blocks := by
  induction rows generalizing db with
  | nil => rfl
  | cons r rows ih =>
    rw [List.foldl_cons, ih, insertTransaction_blocks]

/-- A height present in the store stays present through any block insert
(a replace keeps the height populated). -/
theorem insertBlock_height_mono {db : DbState} {h : Int} (now h2 ts : Int) (hs : String)
    (hp : (getBlock db h).isSome = true) :
    (getBlock (insertBlock now db h2 ts hs) h).isSome = true := by
  by_cases he : h2 = h
  · subst he
    rw [(duplicate_insert_semantics db ⟨none, "", 0, "", none, 0, 0⟩ now h2 ts hs).2.1]
    rfl
  · rw [(duplicate_insert_semantics db ⟨none, "", 0, "", none, 0, 0⟩ now h2 ts hs).2.2 h
      (fun hc => he hc.symm)]
    exact hp

/-- Height presence is preserved through a fold of block inserts. -/
theorem foldl_blockInserts_mono (now : Int) (items : List FetchResult) (db : DbState) {h : Int}
    (hp : (getBlock db h).isSome = true) :
    (getBlock ((items.filterMap (mkBlockInsert now)).foldl
      (fun d i => insertBlock now d i.1 i.2.1 i.2.2) db) h).isSome = true := by
  induction items generalizing db with
  | nil => exact hp
  | cons a rest ih =>
    rw [List.filterMap_cons]
    cases hma : mkBlockInsert now a
    · exact ih db hp
    · rw [List.foldl_cons]
      exact ih _ (insertBlock_height_mono _ _ _ _ hp)

/-- After the block-insert fold, every fetched height with a body is
present in the store. -/
theorem applyBlockInserts_heights_present (now : Int) (blockResults : List FetchResult)
    (db : DbState) :
    ∀ fr ∈ blockResults, fr.data.isSome = true →
      (getBlock (applyBlockInserts now blockResults db) fr.height).isSome = true := by
  unfold applyBlockInserts
  induction blockResults generalizing db with
  | nil => intro fr hfr; cases hfr
  | cons a rest ih =>
    intro fr hfr hdata
    rcases List.mem_cons.mp hfr with rfl | htail
    · cases hda : fr.data with
      | none => rw [hda] at hdata; cases hdata
      | some d =>
        have hmk : mkBlockInsert now fr =
            some (fr.height, jsOrInt d.time now, jsOrString d.hash "") := by
          unfold mkBlockInsert
          rw [hda]
        rw [List.filterMap_cons, hmk, List.foldl_cons]
        have hbase : (getBlock (insertBlock now db fr.height (jsOrInt d.time now)
            (jsOrString d.hash "")) fr.height).isSome = true := by
          rw [(duplicate_insert_semantics db ⟨none, "", 0, "", none, 0, 0⟩ now fr.height
            (jsOrInt d.time now) (jsOrString d.hash "")).2.1]
          rfl
        exact foldl_blockInserts_mono now rest _ hbase
    · rw [List.filterMap_cons]
      cases hma : mkBlockInsert now a
      · exact ih db fr htail hdata
      · rw [List.foldl_cons]
        exact ih _ fr htail hdata


/-- Claim C1 counterexample: `batchInsertData` commits the block inserts
and the transaction inserts in two separate `db.transaction` units, so the
durability boundary between the two commits exposes a state with all the
blocks of the call and none of its transactions — neither nothing nor
everything.  With one block (height 100) and one payment on an empty
store, the between-commits state differs from both the initial and the
fully committed state. -/
theorem batchInsertData_not_atomic_counterexample :
    ¬ (batchInsertData 1000 blockResultsA [paymentA] emptyDb .blocksOnly = emptyDb ∨
       batchInsertData 1000 blockResultsA [paymentA] emptyDb .blocksOnly =
         batchInsertData 1000 blockResultsA [paymentA] emptyDb .complete) := by
  decide

/-- Claim C1 (amended): each of the two groups is atomic on its own — at
any durability boundary the store holds the initial state, the state with
exactly the block rows committed, or the state with both groups committed
— but the call as a whole is not one atomic unit: the blocks-only state is
reachable.  On the fully committed path every payment with a concrete
block height is durably stored under its unique triple and every fetched
block body is durably stored under its height; the row-by-row fallback of
the catch handler reaches the same final state as the two commits. -/
theorem batchInsertData_two_phase (now : Int) (blockResults : List FetchResult)
    (transactions : List Payment) (db : DbState) :
    (∀ o, batchInsertData now blockResults transactions db o = db ∨
       batchInsertData now blockResults transactions db o =
         applyBlockInserts now blockResults db ∨
       batchInsertData now blockResults transactions db o =
         applyTransactionInserts now blockResults transactions
           (applyBlockInserts now blockResults db)) ∧
    (fallbackIndividualInserts now blockResults transactions db =
      batchInsertData now blockResults transactions db .complete) ∧
    (∀ tx ∈ transactions, (Payment.blockHeight tx).isSome = true →
      ∃ t ∈ (batchInsertData now blockResults transactions db .complete).txs,
        sameTxKey t tx.id tx.voutIndex tx.toAddr = true) ∧
    (∀ fr ∈ blockResults, fr.data.isSome = true →
      (getBlock (batchInsertData now blockResults transactions db .complete)
        fr.height).isSome = true) := by
  refine ⟨fun o => ?_, ?_, fun tx htx hh => ?_, fun fr hfr hdata => ?_⟩
  · cases o
    · exact Or.inl rfl
    · exact Or.inr (Or.inl rfl)
    · exact Or.inr (Or.inr rfl)
  · unfold fallbackIndividualInserts batchInsertData applyTransactionInserts applyBlockInserts
    rw [List.foldl_map, foldl_filterMap_insertBlock]
  · have hrow : mkTransactionInsert now blockResults tx ∈
        transactions.map (mkTransactionInsert now blockResults) :=
      List.mem_map_of_mem _ htx
    have hbh : (mkTransactionInsert now blockResults tx).blockHeight.isSome = true := hh
    obtain ⟨t, ht, hkey⟩ := foldl_insertTransaction_all_keys
      (transactions.map (mkTransactionInsert now blockResults))
      (applyBlockInserts now blockResults db) _ hrow hbh
    exact ⟨t, ht, hkey⟩
  · show (getBlock (applyTransactionInserts now blockResults transactions
      (applyBlockInserts now blockResults db)) fr.height).isSome = true
    unfold getBlock
    unfold applyTransactionInserts
    rw [foldl_insertTransaction_blocks]
    exact applyBlockInserts_heights_present now blockResults db fr hfr hdata

/-- Claim C1 witness: on the fully committed path of the one-block,
one-payment scenario the payment row is stored under its triple and the
block under height 100; the fallback path lands in the same state. -/
theorem batchInsertData_two_phase_witness :
    (paymentA ∈ [paymentA]) ∧ ((Payment.blockHeight paymentA).isSome = true) ∧
    ((batchInsertData 1000 blockResultsA [paymentA] emptyDb .complete).txs.any
      (fun t => sameTxKey t paymentA.id paymentA.voutIndex paymentA.toAddr) = true) ∧
    (((⟨100, some blockDataA, false, none⟩ : FetchResult) ∈ blockResultsA) ∧
      (FetchResult.data ⟨100, some blockDataA, false, none⟩).isSome = true) ∧
    ((getBlock (batchInsertData 1000 blockResultsA [paymentA] emptyDb .complete)
      (FetchResult.height ⟨100, some blockDataA, false, none⟩)).isSome = true) ∧
    (fallbackIndividualInserts 1000 blockResultsA [paymentA] emptyDb =
      batchInsertData 1000 blockResultsA [paymentA] emptyDb .complete) := by
  have hmem : paymentA ∈ [paymentA] := by simp
  have hbh : (Payment.blockHeight paymentA).isSome = true := by decide
  have hfr : (⟨100, some blockDataA, false, none⟩ : FetchResult) ∈ blockResultsA := by
    unfold blockResultsA
    simp
  have hdata : (FetchResult.data ⟨100, some blockDataA, false, none⟩).isSome = true := by decide
  obtain ⟨t, ht, hkey⟩ :=
    (batchInsertData_two_phase 1000 blockResultsA [paymentA] emptyDb).2.2.1 paymentA hmem hbh
  refine ⟨hmem, hbh, List.any_eq_true.mpr ⟨t, ht, hkey⟩, ⟨hfr, hdata⟩,
    (batchInsertData_two_phase 1000 blockResultsA [paymentA] emptyDb).2.2.2 _ hfr hdata,
    (batchInsertData_two_phase 1000 blockResultsA [paymentA] emptyDb).2.1⟩


/-- When the stored blocks are exactly a filtered integer range, gap
detection over that range returns exactly the complement of the filter. -/
theorem detectMissingBlocks_of_rangeStore (p : Int → Bool) (ts sy : Int) (hsh : String)
    (txs : List TxRow) (s e : Int) :
    detectMissingBlocks ⟨((intRange s e).filter p).map (fun h => ⟨h, ts, hsh, sy⟩), txs⟩ s e =
      (intRange s e).filter (fun h => !(p h)) := by
  unfold detectMissingBlocks
  have hfil : ((((intRange s e).filter p).map (fun h => (⟨h, ts, hsh, sy⟩ : BlockRow))).filter
      (fun b => decide (s ≤ b.height) && decide (b.height ≤ e))) =
      ((intRange s e).filter p).map (fun h => ⟨h, ts, hsh, sy⟩) := by
    apply List.filter_eq_self.mpr
    intro b hb
    obtain ⟨h, hh, rfl⟩ := List.mem_map.mp hb
    have hmem := mem_intRange.mp (List.mem_filter.mp hh).1
    simp only [Bool.and_eq_true, decide_eq_true_eq]
    exact hmem
  rw [hfil, List.map_map]
  have hid : ((fun b : BlockRow => b.height) ∘ (fun h : Int => (⟨h, ts, hsh, sy⟩ : BlockRow))) =
      fun h => h := rfl
  rw [hid, List.map_id']
  apply List.filter_congr
  intro h hh
  congr 1
  cases hp : p h
  · have hnot : h ∉ (intRange s e).filter p := by
      intro hmem
      have := (List.mem_filter.mp hmem).2
      rw [hp] at this
      cases this
    cases hcont : ((intRange s e).filter p).contains h
    · rfl
    · exact absurd (List.mem_of_elem_eq_true hcont) hnot
  · have hmem : h ∈ (intRange s e).filter p := List.mem_filter.mpr ⟨hh, hp⟩
    cases hcont : ((intRange s e).filter p).contains h
    · exfalso
      have helem : List.elem h ((intRange s e).filter p) = true := List.elem_eq_true_of_mem hmem
      unfold List.contains at hcont
      rw [helem] at hcont
      cases hcont
    · rfl

/-- A gap-fill call over a window with nothing missing returns zero and
changes nothing. -/
theorem detectAndFill_no_missing (now : Int) (bc api : Int → Option BlockData)
    (raw : String → Nat → Option RawTxResponse) (tas : List String)
    (db : DbState) (ac : AddressCache) (s e : Int)
    (h : detectMissingBlocks db s e = []) :
    detectAndFillMissingBlocks now bc api raw tas db ac s e = (0, db, ac) := by
  simp only [detectAndFillMissingBlocks, h]
  rfl

/-- A gap-fill call over a window with missing heights processes exactly
them: the count is their number and the store is the fold of the fill
batches. -/
theorem detectAndFill_missing_eq (now : Int) (bc api : Int → Option BlockData)
    (raw : String → Nat → Option RawTxResponse) (tas : List String)
    (db : DbState) (ac : AddressCache) (s e : Int) (m : List Int)
    (hm : detectMissingBlocks db s e = m) (hne : m.isEmpty = false) :
    detectAndFillMissingBlocks now bc api raw tas db ac s e =
      (m.length, ((m.toChunks 50).foldl (processMissingBatch now bc api raw tas) (db, ac)).1,
        ((m.toChunks 50).foldl (processMissingBatch now bc api raw tas) (db, ac)).2) := by
  simp only [detectAndFillMissingBlocks, hm, hne]
  simp only [Bool.false_eq_true, if_false]

/-- The completion check at ≥ 95 % progress with a truthy `lowestSynced`:
scan and fill the recent window, then the historical window on the
updated store, and return whether the total filled count is zero. -/
theorem completion_check_eq_of_some (BPD RD now : Int) (bc api : Int → Option BlockData)
    (raw : String → Nat → Option RawTxResponse) (tas : List String)
    (db : DbState) (ac : AddressCache) (tip : Int) (lw : Int)
    (h95 : (95 : ℚ) ≤ (getSyncStatusOfDb BPD RD db tip).syncProgress)
    (hlow : (getSyncStatusOfDb BPD RD db tip).lowestSynced = some lw) :
    performFinalCompletionCheck BPD RD now bc api raw tas db ac tip =
      (((detectAndFillMissingBlocks now bc api raw tas db ac (tip - 3 * BPD) tip).1 +
        (detectAndFillMissingBlocks now bc api raw tas
          (detectAndFillMissingBlocks now bc api raw tas db ac (tip - 3 * BPD) tip).2.1
          (detectAndFillMissingBlocks now bc api raw tas db ac (tip - 3 * BPD) tip).2.2
          (max (lw - 7 * BPD) (getSyncStatusOfDb BPD RD db tip).targetLowestBlock) lw).1 == 0),
       (detectAndFillMissingBlocks now bc api raw tas
          (detectAndFillMissingBlocks now bc api raw tas db ac (tip - 3 * BPD) tip).2.1
          (detectAndFillMissingBlocks now bc api raw tas db ac (tip - 3 * BPD) tip).2.2
          (max (lw - 7 * BPD) (getSyncStatusOfDb BPD RD db tip).targetLowestBlock) lw).2.1) := by
  simp only [performFinalCompletionCheck, hlow]
  rw [if_pos h95]

/-- The completion check at ≥ 95 % progress with no `lowestSynced`: only
the recent window is scanned. -/
theorem completion_check_eq_of_none (BPD RD now : Int) (bc api : Int → Option BlockData)
    (raw : String → Nat → Option RawTxResponse) (tas : List String)
    (db : DbState) (ac : AddressCache) (tip : Int)
    (h95 : (95 : ℚ) ≤ (getSyncStatusOfDb BPD RD db tip).syncProgress)
    (hlow : (getSyncStatusOfDb BPD RD db tip).lowestSynced = none) :
    performFinalCompletionCheck BPD RD now bc api raw tas db ac tip =
      (((detectAndFillMissingBlocks now bc api raw tas db ac (tip - 3 * BPD) tip).1 + 0 == 0),
       (detectAndFillMissingBlocks now bc api raw tas db ac (tip - 3 * BPD) tip).2.1) := by
  simp only [performFinalCompletionCheck, hlow]
  rw [if_pos h95]

/-- When both scan windows are gap-free, the completion check reports
completion. -/
theorem completion_true_of_no_missing (BPD RD now : Int) (bc api : Int → Option BlockData)
    (raw : String → Nat → Option RawTxResponse) (tas : List String)
    (db : DbState) (ac : AddressCache) (tip : Int)
    (h95 : (95 : ℚ) ≤ (getSyncStatusOfDb BPD RD db tip).syncProgress)
    (hrec : detectMissingBlocks db (tip - 3 * BPD) tip = [])
    (hhist : ∀ lw, (getSyncStatusOfDb BPD RD db tip).lowestSynced = some lw →
      detectMissingBlocks db (max (lw - 7 * BPD)
        (getSyncStatusOfDb BPD RD db tip).targetLowestBlock) lw = []) :
    (performFinalCompletionCheck BPD RD now bc api raw tas db ac tip).1 = true := by
  cases hlow : (getSyncStatusOfDb BPD RD db tip).lowestSynced with
  | none =>
    rw [completion_check_eq_of_none BPD RD now bc api raw tas db ac tip h95 hlow,
      detectAndFill_no_missing now bc api raw tas db ac _ tip hrec]
    rfl
  | some lw =>
    rw [completion_check_eq_of_some BPD RD now bc api raw tas db ac tip lw h95 hlow,
      detectAndFill_no_missing now bc api raw tas db ac _ tip hrec,
      detectAndFill_no_missing now bc api raw tas db ac _ lw (hhist lw hlow)]
    rfl


set_option maxRecDepth 40000 in
/-- The stored heights of the near-completion fixture are the retention
range without the two gap heights. -/
theorem dbC9_heights : dbC9.blocks.map (fun b => b.height) =
    (intRange 9499 10000).filter (fun h => h != 9500 && h != 9501) := by
  show (((intRange 9499 10000).filter (fun h => h != 9500 && h != 9501)).map
    (fun h => (⟨h, 1700000000, "", 0⟩ : BlockRow))).map (fun b => b.height) = _
  rw [List.map_map]
  have hid : ((fun b : BlockRow => b.height) ∘
      (fun h : Int => (⟨h, 1700000000, "", 0⟩ : BlockRow))) = fun h => h := rfl
  rw [hid, List.map_id']

set_option maxRecDepth 40000 in
/-- The lowest stored height of the fixture. -/
theorem dbC9_lowest_block : getLowestBlock dbC9 = some 9499 := by
  unfold getLowestBlock
  rw [dbC9_heights]
  refine (@List.min?_eq_some_iff Int 9499 _ _ ⟨fun h1 h2 => le_antisymm h1 h2⟩
    (fun a => le_refl a) (fun a b => min_choice a b) (fun a b c => le_min_iff) _).mpr ⟨?_, ?_⟩
  · refine List.mem_filter.mpr ⟨mem_intRange.mpr (by omega), by decide⟩
  · intro b hb
    have := mem_intRange.mp (List.mem_filter.mp hb).1
    omega

/-- The `lowestSynced` field reads the `MIN(height)` row through the
JavaScript `|| null` normalisation. -/
theorem lowestSynced_eq (BPD RD : Int) (db : DbState) (tip : Int) :
    (getSyncStatusOfDb BPD RD db tip).lowestSynced = jsOrNull (getLowestBlock db) := rfl

set_option maxRecDepth 40000 in
theorem dbC9_lowest : (getSyncStatusOfDb 167 3 dbC9 10000).lowestSynced = some 9499 := by
  rw [lowestSynced_eq, dbC9_lowest_block]
  rfl

set_option maxRecDepth 40000 in
/-- Exactly the two gap heights are missing from the fixture over the
recent window. -/
theorem dbC9_detect_missing : detectMissingBlocks dbC9 9499 10000 = [9500, 9501] := by
  have hshape : dbC9 = ⟨((intRange 9499 10000).filter (fun h => h != 9500 && h != 9501)).map
      (fun h => ⟨h, 1700000000, "", 0⟩), []⟩ := rfl
  rw [hshape, detectMissingBlocks_of_rangeStore]
  decide

theorem dbC9_detect_missing_window :
    detectMissingBlocks dbC9 (10000 - 3 * 167) 10000 = [9500, 9501] := by
  rw [show ((10000 : Int) - 3 * 167) = 9499 from by norm_num]
  exact dbC9_detect_missing

/-- The progress field is the stored count over the retention target. -/
theorem syncProgressOfDb_eq (BPD RD : Int) (db : DbState) (tip : Int) :
    (getSyncStatusOfDb BPD RD db tip).syncProgress =
      ((getTotalBlockCount db : Int) : ℚ) / ((BPD : ℚ) * (RD : ℚ)) * 100 := rfl

set_option maxRecDepth 40000 in
theorem dbC9_near_completion :
    (95 : ℚ) ≤ (getSyncStatusOfDb 167 3 dbC9 10000).syncProgress := by
  have hc : getTotalBlockCount dbC9 = 500 := by decide
  rw [syncProgressOfDb_eq, hc]
  norm_num

set_option maxRecDepth 40000 in
/-- In the fixture cycle the completion check returns `false`: it counts
the two heights it just filled. -/
theorem dbC9_check_false :
    (performFinalCompletionCheck 167 3 1700000000 cacheNone apiC9 (fun _ _ => none)
      ["tADDR1"] dbC9 [] 10000).1 = false := by
  rw [completion_check_eq_of_some 167 3 1700000000 cacheNone apiC9 (fun _ _ => none)
      ["tADDR1"] dbC9 [] 10000 9499 dbC9_near_completion dbC9_lowest,
    detectAndFill_missing_eq 1700000000 cacheNone apiC9 (fun _ _ => none) ["tADDR1"]
      dbC9 [] (10000 - 3 * 167) 10000 [9500, 9501] dbC9_detect_missing_window (by decide)]
  show ((2 : Nat) + _ == 0) = false
  exact beq_eq_false_iff_ne.mpr (by omega)

set_option maxRecDepth 40000 in
/-- In the fixture cycle the two gap heights are fetched and committed to
the store. -/
theorem dbC9_gaps_committed :
    (getBlock (performFinalCompletionCheck 167 3 1700000000 cacheNone apiC9
      (fun _ _ => none) ["tADDR1"] dbC9 [] 10000).2 9500).isSome = true ∧
    (getBlock (performFinalCompletionCheck 167 3 1700000000 cacheNone apiC9
      (fun _ _ => none) ["tADDR1"] dbC9 [] 10000).2 9501).isSome = true := by
  rw [completion_check_eq_of_some 167 3 1700000000 cacheNone apiC9 (fun _ _ => none)
      ["tADDR1"] dbC9 [] 10000 9499 dbC9_near_completion dbC9_lowest,
    detectAndFill_missing_eq 1700000000 cacheNone apiC9 (fun _ _ => none) ["tADDR1"]
      dbC9 [] (10000 - 3 * 167) 10000 [9500, 9501] dbC9_detect_missing_window (by decide)]
  constructor
  · decide
  · decide


/-- A fully gap-free fixture for the completion-check witness: heights
−2..1, tip 1, `BLOCKS_PER_DAY = RETENTION_DAYS = 1`. -/
def dbW : DbState :=
  ⟨[⟨-2, 5, "h", 1⟩, ⟨-1, 5, "h", 1⟩, ⟨0, 5, "h", 1⟩, ⟨1, 5, "h", 1⟩], []⟩

/-- Claim C9 counterexample: in the near-completion state (tip 10000,
progress ≈ 99.8 % ≥ 95, exactly heights 9500 and 9501 missing near the
tip) the gap-fill pass detects exactly those two heights, yet the cycle
does NOT publish completion: `performFinalCompletionCheck` returns
`totalMissing === 0` and counts the two heights it just filled, so the
result is `false`, not the `true` the claim expects. -/
theorem gap_fill_completion_counterexample :
    detectMissingBlocks dbC9 9499 10000 = [9500, 9501] ∧
    (performFinalCompletionCheck 167 3 1700000000 cacheNone apiC9 (fun _ _ => none)
      ["tADDR1"] dbC9 [] 10000).1 = false :=
  ⟨dbC9_detect_missing, dbC9_check_false⟩

/-- Claim C9 (amended): when progress ≥ 95 % and the two scan windows
contain no missing heights (and `new_blocks_remaining = 0`, which the
code does not even consult), the completion check returns `true` and the
cycle publishes `isComplete = true`.  In the concrete near-completion
state, the gap-fill pass fetches and commits exactly the missing heights
9500 and 9501, but that cycle publishes `isComplete = false` — completion
is only reported by a later cycle whose scans find nothing missing. -/
theorem gap_fill_completion_semantics :
    (∀ (BPD RD now : Int) (bc api : Int → Option BlockData)
       (raw : String → Nat → Option RawTxResponse) (tas : List String)
       (db : DbState) (ac : AddressCache) (tip : Int),
      (95 : ℚ) ≤ (getSyncStatusOfDb BPD RD db tip).syncProgress →
      (getSyncStatusOfDb BPD RD db tip).newBlocksRemaining = 0 →
      detectMissingBlocks db (tip - 3 * BPD) tip = [] →
      (∀ lw, (getSyncStatusOfDb BPD RD db tip).lowestSynced = some lw →
        detectMissingBlocks db (max (lw - 7 * BPD)
          (getSyncStatusOfDb BPD RD db tip).targetLowestBlock) lw = []) →
      (performFinalCompletionCheck BPD RD now bc api raw tas db ac tip).1 = true) ∧
    (detectMissingBlocks dbC9 9499 10000 = [9500, 9501] ∧
     (getBlock (performFinalCompletionCheck 167 3 1700000000 cacheNone apiC9
       (fun _ _ => none) ["tADDR1"] dbC9 [] 10000).2 9500).isSome = true ∧
     (getBlock (performFinalCompletionCheck 167 3 1700000000 cacheNone apiC9
       (fun _ _ => none) ["tADDR1"] dbC9 [] 10000).2 9501).isSome = true ∧
     (performFinalCompletionCheck 167 3 1700000000 cacheNone apiC9 (fun _ _ => none)
       ["tADDR1"] dbC9 [] 10000).1 = false) := by
  exact ⟨fun BPD RD now bc api raw tas db ac tip h95 _ hrec hhist =>
      completion_true_of_no_missing BPD RD now bc api raw tas db ac tip h95 hrec hhist,
    dbC9_detect_missing, dbC9_gaps_committed.1, dbC9_gaps_committed.2, dbC9_check_false⟩

/-- Claim C9 witness: on the gap-free fixture (tip 1, progress 400 %,
no new blocks remaining, both windows clean) the completion check reports
completion. -/
theorem gap_fill_completion_semantics_witness :
    ((95 : ℚ) ≤ (getSyncStatusOfDb 1 1 dbW 1).syncProgress) ∧
    ((getSyncStatusOfDb 1 1 dbW 1).newBlocksRemaining = 0) ∧
    (detectMissingBlocks dbW (1 - 3 * 1) 1 = []) ∧
    (performFinalCompletionCheck 1 1 777 cacheNone apiC9 (fun _ _ => none)
      ["tADDR1"] dbW [] 1).1 = true := by
  have h95 : (95 : ℚ) ≤ (getSyncStatusOfDb 1 1 dbW 1).syncProgress := by
    rw [syncProgressOfDb_eq, show getTotalBlockCount dbW = 4 from by decide]
    norm_num
  refine ⟨h95, by decide, by decide,
    gap_fill_completion_semantics.1 1 1 777 cacheNone apiC9 (fun _ _ => none)
      ["tADDR1"] dbW [] 1 h95 (by decide) (by decide) ?_⟩
  intro lw hlw
  rw [show (getSyncStatusOfDb 1 1 dbW 1).lowestSynced = some (-2) from by decide] at hlw
  rw [← Option.some.inj hlw]
  decide

end FluxRevenue
